import Mathlib

/-!
Verification development for the flashblocks pending-state reconciliation
engine of the node-reth repository.

The repository sources available are the integration tests
(crates/flashblocks/tests/state.rs), the test flashblock builder
(crates/test-utils/src/flashblock_builder.rs) and the canonical-event
extension loop (crates/runner/src/extensions/canon.rs).  The engine itself
(base_reth_flashblocks::FlashblocksState) is not part of the provided
sources, so it is modelled from the specification; wherever the
repository's own tests pin down the engine's observable behaviour, the
model follows the tests.

Machine integers (u64, U256) are modelled as Nat: none of the scenarios
exercised here approach overflow.  Addresses and hashes are modelled as
Nat.  Raw transaction bytes are modelled by a small transaction datatype;
byte-identity of fragments becomes structural (decidable) equality.
-/

/-- Addresses are modelled as natural numbers. -/
abbrev Addr := Nat

/-- Canonical account state (reth Account): nonce and balance.  The
bytecode hash field is never consulted by the scenarios verified here and
is omitted. -/
structure Account where
  nonce : Nat
  balance : Nat
deriving DecidableEq, Repr

/-- A transaction, standing in for raw encoded transaction bytes.  A
deposit-style (system) transaction carries its intrinsic nonce field; a
transfer carries sender, recipient, amount and the sender nonce it was
signed with. -/
inductive Tx where
  | deposit (nonce : Nat)
  | transfer (sender recipient : Addr) (amount : Nat) (nonce : Nat)
deriving DecidableEq, Repr

/-- Information about the parent block needed to construct a flashblock
(crates/test-utils/src/flashblock_builder.rs, ParentBlockInfo). -/
structure ParentBlockInfo where
  number : Nat
  hash : Nat
  gas_limit : Nat
  timestamp : Nat
deriving DecidableEq, Repr

/-- Base payload carried by an index-0 flashblock
(base_flashtypes::ExecutionPayloadBaseV1 as populated by the builder).
The fee_recipient and prev_randao fields are drawn at random by the
builder source; they are fixed to 0 here and no claim observes them.
The extra_data field (always empty in the builder) is omitted. -/
structure ExecutionPayloadBaseV1 where
  parent_beacon_block_root : Nat
  parent_hash : Nat
  fee_recipient : Addr
  prev_randao : Nat
  block_number : Nat
  gas_limit : Nat
  timestamp : Nat
  base_fee_per_gas : Nat
deriving DecidableEq, Repr

/-- Delta payload of a flashblock
(base_flashtypes::ExecutionPayloadFlashblockDeltaV1 as populated by the
builder).  The withdrawals, logs_bloom, withdrawals_root and
blob_gas_used fields are always default-valued in the builder and are
omitted. -/
structure ExecutionPayloadFlashblockDeltaV1 where
  state_root : Nat
  receipts_root : Nat
  block_hash : Nat
  gas_used : Nat
  transactions : List Tx
deriving DecidableEq, Repr

/-- Flashblock metadata.  In this version of the repository the builder
constructs it with exactly one field, the target block number
(Metadata { block_number: canonical_block_num }); in particular it
carries no receipts. -/
structure Metadata where
  block_number : Nat
deriving DecidableEq, Repr

/-- A flashblock fragment (base_flashtypes::Flashblock as populated by
the builder; the payload_id field, always default, is omitted). -/
structure Flashblock where
  index : Nat
  base : Option ExecutionPayloadBaseV1
  diff : ExecutionPayloadFlashblockDeltaV1
  metadata : Metadata
deriving DecidableEq, Repr

/-- A transaction receipt (OpReceipt as populated by the builder).
Modelled with the fields the builder sets; logs are always empty and are
omitted. -/
structure OpReceipt where
  status : Bool
  cumulative_gas_used : Nat
  deposit_nonce : Option Nat
deriving DecidableEq, Repr

/-- The fixed L1 block info deposit transaction embedded in every base
flashblock (test-utils constant L1_BLOCK_INFO_DEPOSIT_TX).  Its intrinsic
deposit nonce is 0, matching the deposit_nonce the engine reports for it
in the tests. -/
def L1_BLOCK_INFO_DEPOSIT_TX : Tx := .deposit 0

/-- Builder for constructing test flashblocks
(crates/test-utils/src/flashblock_builder.rs, FlashblockBuilder).  The
receipts map is keyed by transaction hash in the source; hashes are
modelled by the transaction value itself, which is injective for the
transactions built here. -/
structure FlashblockBuilder where
  transactions : List Tx
  receipts : Option (List (Tx × OpReceipt))
  parent_block : ParentBlockInfo
  canonical_block_number : Option Nat
  index : Nat
deriving DecidableEq, Repr

/-- Creates a new base flashblock builder (index 0) with the L1 block
info deposit transaction and its deposit receipt
(FlashblockBuilder::new_base). -/
def FlashblockBuilder.new_base (parent_block : ParentBlockInfo) : FlashblockBuilder :=
  { canonical_block_number := none
    transactions := [L1_BLOCK_INFO_DEPOSIT_TX]
    receipts := some [(L1_BLOCK_INFO_DEPOSIT_TX,
      { status := true, cumulative_gas_used := 10000, deposit_nonce := some 4012991 })]
    index := 0
    parent_block := parent_block }

/-- Creates a new delta flashblock builder with the given index
(FlashblockBuilder::new). -/
def FlashblockBuilder.new (parent_block : ParentBlockInfo) (index : Nat) : FlashblockBuilder :=
  { canonical_block_number := none
    transactions := []
    receipts := some []
    parent_block := parent_block
    index := index }

/-- Sets the receipts for this flashblock; none simulates flashblocks
without receipts (FlashblockBuilder::with_receipts). -/
def FlashblockBuilder.with_receipts (b : FlashblockBuilder)
    (receipts : Option (List (Tx × OpReceipt))) : FlashblockBuilder :=
  { b with receipts := receipts }

/-- Adds transactions to a delta flashblock, generating success receipts
(FlashblockBuilder::with_transactions).  The source asserts index != 0
(panicking otherwise); every use in the tests and claims has index != 0.
Gas accounting inside the generated receipts is omitted: the builder's
build function discards the receipts entirely in this repository
version. -/
def FlashblockBuilder.with_transactions (b : FlashblockBuilder)
    (transactions : List Tx) : FlashblockBuilder :=
  { b with
    transactions := transactions
    receipts := b.receipts.map (fun rs =>
      rs ++ transactions.map (fun t =>
        (t, { status := true, cumulative_gas_used := 0, deposit_nonce := none }))) }

/-- Overrides the canonical block number for this flashblock
(FlashblockBuilder::with_canonical_block_number). -/
def FlashblockBuilder.with_canonical_block_number (b : FlashblockBuilder)
    (num : Nat) : FlashblockBuilder :=
  { b with canonical_block_number := some num }

/-- Builds the flashblock (FlashblockBuilder::build).  Note the source
computes the target as self.canonical_block_number.unwrap_or(parent
number) + 1: an explicit override value therefore also gets 1 added to
it.  The built Flashblock carries no receipts: Metadata has only the
block_number field in this version. -/
def FlashblockBuilder.build (b : FlashblockBuilder) : Flashblock :=
  let canonical_block_num := (b.canonical_block_number.getD b.parent_block.number) + 1
  let base : Option ExecutionPayloadBaseV1 :=
    if b.index = 0 then
      some { parent_beacon_block_root := b.parent_block.hash
             parent_hash := b.parent_block.hash
             fee_recipient := 0
             prev_randao := 0
             block_number := canonical_block_num
             gas_limit := b.parent_block.gas_limit
             timestamp := b.parent_block.timestamp + 2
             base_fee_per_gas := 100 }
    else none
  { index := b.index
    base := base
    diff := { state_root := 0, receipts_root := 0, block_hash := 0, gas_used := 0,
              transactions := b.transactions }
    metadata := { block_number := canonical_block_num } }

/-- Modelled from the spec: one entry of the OverrideMap (spec section 3)
maintained by the Override Layer, which is part of the missing engine
crate.  Balance is an absolute replacement value, nonce_delta is the
pending transaction count for the address, code_hash replaces if
present. -/
structure OverrideEntry where
  balance : Option Nat
  nonce_delta : Nat
  code_hash : Option Nat
deriving DecidableEq, Repr

/-- Modelled from the spec: the address-keyed OverrideMap (spec section
3), as an association list with insertion order kept deterministic. -/
abbrev OverrideMap := List (Addr × OverrideEntry)

/-- Looks up the override entry for an address. -/
def ovLookup (m : OverrideMap) (a : Addr) : Option OverrideEntry :=
  match m with
  | [] => none
  | (k, e) :: rest => if k = a then some e else ovLookup rest a

/-- Inserts or replaces the override entry for an address, keeping the
position of an existing key. -/
def ovInsert (m : OverrideMap) (a : Addr) (e : OverrideEntry) : OverrideMap :=
  match m with
  | [] => [(a, e)]
  | (k, e0) :: rest => if k = a then (k, e) :: rest else (k, e0) :: ovInsert rest a e

/-- The empty override entry used as the starting point for an address
not yet touched. -/
def emptyOverrideEntry : OverrideEntry :=
  { balance := none, nonce_delta := 0, code_hash := none }

/-- Modelled from the spec: speculative execution of one pending
transaction against canonical state overlaid with the current override
map (spec sections 4.1 and 4.2, the Account-State Provider execution
path of the missing engine crate).  A transfer debits the sender, bumps
the sender's pending-transaction count, and credits the recipient; the
balance stored is the absolute post-state value.  The system deposit
transaction touches no test account. -/
def execTx (canon : Addr → Account) (ov : OverrideMap) (t : Tx) : OverrideMap :=
  match t with
  | .deposit _ => ov
  | .transfer s r amount _ =>
    let sEntry := (ovLookup ov s).getD emptyOverrideEntry
    let sBal := sEntry.balance.getD (canon s).balance
    let ov1 := ovInsert ov s
      { sEntry with balance := some (sBal - amount), nonce_delta := sEntry.nonce_delta + 1 }
    let rEntry := (ovLookup ov1 r).getD emptyOverrideEntry
    let rBal := rEntry.balance.getD (canon r).balance
    ovInsert ov1 r { rEntry with balance := some (rBal + amount) }

/-- Modelled from the spec: execution of all transactions of one
fragment, in order, merging deltas into the override map. -/
def execFragment (canon : Addr → Account) (ov : OverrideMap) (fb : Flashblock) : OverrideMap :=
  fb.diff.transactions.foldl (execTx canon) ov

/-- Modelled from the spec: one pending block being assembled from
fragments (spec section 3, PendingSequence).  The fragments list holds
the applied fragments in index order, so highest_applied_index equals
fragments.length - 1. -/
structure PendingBlock where
  number : Nat
  fragments : List Flashblock
deriving DecidableEq, Repr

/-- Modelled from the spec: the engine state of
base_reth_flashblocks::FlashblocksState, whose source is not in the
repository.  The anchor is the canonical block number the engine has
incorporated (spec section 3, CanonicalAnchor; the hash component is
never observed by the claims and is omitted).  The tests pin down that
the engine can hold pending blocks for more than one height at a time
(test_state_overrides_persisted_across_blocks stacks a base for the next
height on top of the live one and keeps the accumulated overrides), so
pending is a list of pending blocks in ascending height order rather
than the single sequence the spec describes. -/
structure FlashblocksState where
  anchor : Nat
  pending : List PendingBlock
  overrides : OverrideMap
deriving DecidableEq, Repr

/-- All transactions of a pending block, fragment lists concatenated in
index order. -/
def pendingBlockTxs (p : PendingBlock) : List Tx :=
  (p.fragments.map (fun f => f.diff.transactions)).flatten

/-- Modelled from the spec: fragment ingestion (spec section 4.1,
Fragment Validator and Sequencer of the missing engine crate), resolved
against the behaviour the repository tests pin down.  In order: a
fragment byte-identical to the one previously applied at its index in
the live (highest) pending block is an idempotent no-op
(test_duplicate_flashblock_ignored); an index-0 fragment for the same
height rebases that block keeping the override map (spec section 4.1),
for the next height stacks a new pending block on top keeping the
override map (test_state_overrides_persisted_across_blocks), and for any
other height starts over with a cleared override map (spec section 4.1);
the expected next index extends the live block and merges the executed
deltas; anything else invalidates all pending state without surfacing an
error (test_non_sequential_payload_clears_pending_state).  Ingestion
never fails: sequencing anomalies resolve by state transition (spec
section 7). -/
def ingest (canon : Addr → Account) (st : FlashblocksState) (fb : Flashblock) :
    FlashblocksState :=
  match st.pending.getLast? with
  | none =>
    if fb.index = 0 then
      { st with pending := [{ number := fb.metadata.block_number, fragments := [fb] }]
                overrides := execFragment canon [] fb }
    else st
  | some b =>
    if b.fragments[fb.index]? = some fb then st
    else if fb.index = 0 then
      if fb.metadata.block_number = b.number then
        { st with pending := st.pending.dropLast ++ [{ number := b.number, fragments := [fb] }]
                  overrides := execFragment canon st.overrides fb }
      else if fb.metadata.block_number = b.number + 1 then
        { st with
            pending := st.pending ++ [{ number := fb.metadata.block_number, fragments := [fb] }]
            overrides := execFragment canon st.overrides fb }
      else
        { st with pending := [{ number := fb.metadata.block_number, fragments := [fb] }]
                  overrides := execFragment canon [] fb }
    else if fb.metadata.block_number = b.number ∧ fb.index = b.fragments.length then
      { st with
          pending := st.pending.dropLast ++ [{ number := b.number, fragments := b.fragments ++ [fb] }]
          overrides := execFragment canon st.overrides fb }
    else
      { st with pending := [], overrides := [] }

/-- Modelled from the spec: canonical block reconciliation (spec section
4.3, Canonical Synchronizer of the missing engine crate), resolved
against test_only_current_pending_state_cleared_upon_canonical_block_reorg:
the anchor advances, pending blocks at heights at or below the canonical
block are dropped, the retained pending blocks keep their transactions,
and the override map is recomputed by re-executing the retained pending
transactions against the post-block canonical state (supplied by the
Account-State Provider as canonAfter). -/
def on_canonical_block_received (canonAfter : Addr → Account) (block_number : Nat)
    (st : FlashblocksState) : FlashblocksState :=
  let keep := st.pending.filter (fun p => block_number < p.number)
  { anchor := block_number
    pending := keep
    overrides := ((keep.map pendingBlockTxs).flatten).foldl (execTx canonAfter) [] }

/-- A transaction as presented in the assembled pending block view: the
raw transaction together with its displayed deposit nonce, which for a
deposit-style transaction is populated from the transaction's own
intrinsic nonce field (test_metadata_receipts_are_optional) and is absent
for other transactions. -/
structure AssembledTransaction where
  tx : Tx
  deposit_nonce : Option Nat
deriving DecidableEq, Repr

/-- Assembles the displayed form of one pending transaction. -/
def assembleTx (t : Tx) : AssembledTransaction :=
  { tx := t
    deposit_nonce := match t with | .deposit n => some n | _ => none }

/-- The assembled pending block view served to readers: header number
and the concatenated transaction list. -/
structure PendingBlockView where
  header_number : Nat
  transactions : List AssembledTransaction
deriving DecidableEq, Repr

/-- Modelled from the spec: get_block of the missing engine crate's
query facade (spec section 4.4), resolved against the repository tests:
with a live pending block the view of the highest pending block is
returned; with no pending block the tests assert that get_block(true)
returns nothing (test_progress_canonical_blocks_without_flashblocks,
test_non_sequential_payload_clears_pending_state), so the allow_fallback
argument has no observable effect and is kept only for signature
fidelity. -/
def get_block (st : FlashblocksState) (_allow_fallback : Bool) : Option PendingBlockView :=
  match st.pending.getLast? with
  | some b =>
    some { header_number := b.number, transactions := (pendingBlockTxs b).map assembleTx }
  | none => none

/-- Modelled from the spec: is_none of the query facade — true when no
live pending block exists (spec section 6). -/
def is_none (st : FlashblocksState) : Bool :=
  st.pending.isEmpty

/-- Modelled from the spec: get_state_overrides of the query facade —
some exactly when a live pending block exists, even if the map is empty
(spec section 4.5). -/
def get_state_overrides (st : FlashblocksState) : Option OverrideMap :=
  if st.pending.isEmpty then none else some st.overrides

/-- Modelled from the spec: get_transaction_count of the query facade —
the pending transaction count for the address, re-derived from the
override map's nonce_delta (spec section 4.5). -/
def get_transaction_count (st : FlashblocksState) (a : Addr) : Nat :=
  ((ovLookup st.overrides a).map (fun e => e.nonce_delta)).getD 0

/-- Modelled from the spec: get_balance of the query facade — the
override balance if present (spec section 4.5). -/
def get_balance (st : FlashblocksState) (a : Addr) : Option Nat :=
  (ovLookup st.overrides a).bind (fun e => e.balance)

/-- Modelled from the spec: get_canonical_block_number of the query
facade — the synchronizer's anchor (spec section 4.5). -/
def get_canonical_block_number (st : FlashblocksState) : Nat :=
  st.anchor

/-- Modelled from the spec: canonical-chain execution of one transaction
by the external chain (spec section 2, Account-State Provider): a
committed transfer bumps the sender nonce and moves balance. -/
def execCanonTx (s : Addr → Account) (t : Tx) : Addr → Account :=
  match t with
  | .deposit _ => s
  | .transfer sd r amount _ =>
    fun a =>
      let acc := s a
      let acc1 :=
        if a = sd then { acc with nonce := acc.nonce + 1, balance := acc.balance - amount }
        else acc
      if a = r then { acc1 with balance := acc1.balance + amount } else acc1

/-- Modelled from the spec: the canonical account state at a given
height, obtained by executing the blocks up to that height (block k,
1-indexed, is entry k-1 of the list) from the genesis state.  This
models the provider's state_by_block_number lookup used by the nonce
race test. -/
def stateAtHeight (genesis : Addr → Account) (blocks : List (List Tx)) (h : Nat) :
    Addr → Account :=
  ((blocks.take h).flatten).foldl execCanonTx genesis

/-- A canonical chain segment as delivered by a reth ExEx notification
(crates/runner/src/extensions/canon.rs).  The reth Chain stores its
blocks in a map keyed by block number, so into_blocks() yields them in
strictly ascending order and the tip is the last block; a notification
chain is never empty. -/
structure CanonChainSeg where
  blocks : List Nat
  ne : blocks ≠ []
  ascending : blocks.Chain' (· < ·)

/-- The tip (highest block number) of a chain segment. -/
def CanonChainSeg.tip (c : CanonChainSeg) : Nat :=
  c.blocks.getLast?.getD 0

/-- The ExEx notifications consumed by the flashblocks-canon extension
loop (reth_exex::ExExNotification restricted to the data the loop
reads). -/
inductive ExExNotification where
  | chainCommitted (new : CanonChainSeg)
  | chainReorged (old new : CanonChainSeg)
  | chainReverted (old : CanonChainSeg)

/-- Forwards every block of a chain segment to
on_canonical_block_received, in list order (the loop body of
FlashblocksCanonExtension::apply).  The stateAfter argument supplies the
post-block canonical account state for each height, standing in for the
provider the engine holds. -/
def applyCanonChain (stateAfter : Nat → Addr → Account) (st : FlashblocksState)
    (blocks : List Nat) : FlashblocksState :=
  blocks.foldl (fun s n => on_canonical_block_received (stateAfter n) n s) st

/-- One iteration of the flashblocks-canon extension loop
(crates/runner/src/extensions/canon.rs, FlashblocksCanonExtension::apply):
on ChainCommitted or ChainReorged every block of the new chain is
forwarded to on_canonical_block_received and the new tip is emitted as
the FinishedHeight event; on ChainReverted nothing is forwarded and the
old tip is emitted.  The emission itself (ctx.events.send) can fail and
is then only logged; the emitted value is returned here. -/
def canonExtensionStep (stateAfter : Nat → Addr → Account) (st : FlashblocksState) :
    ExExNotification → FlashblocksState × Nat
  | .chainCommitted new => (applyCanonChain stateAfter st new.blocks, new.tip)
  | .chainReorged _ new => (applyCanonChain stateAfter st new.blocks, new.tip)
  | .chainReverted old => (st, old.tip)

/-- Demo genesis state used by the concrete witnesses: address 0 (Alice)
holds 1000000 wei, address 1 (Bob) holds 500 wei, both at nonce 0. -/
def demoGenesis : Addr → Account :=
  fun a => if a = 0 then ⟨0, 1000000⟩ else if a = 1 then ⟨0, 500⟩ else ⟨0, 0⟩

/-- Demo parent block info: the genesis block of the test harness. -/
def demoParent : ParentBlockInfo :=
  { number := 0, hash := 7, gas_limit := 30000000, timestamp := 0 }

/-- Demo base fragment for height 1. -/
def demoBase : Flashblock :=
  (FlashblockBuilder.new_base demoParent).build

/-- Demo index-1 fragment for height 1 carrying a 100000 wei transfer
from Alice to Bob. -/
def demoDelta1 : Flashblock :=
  ((FlashblockBuilder.new demoParent 1).with_transactions [Tx.transfer 0 1 100000 0]).build

/-- Demo engine state after the harness has fed the genesis block: the
anchor is 0 and no pending sequence exists. -/
def demoSt0 : FlashblocksState :=
  on_canonical_block_received demoGenesis 0 { anchor := 0, pending := [], overrides := [] }

/-- Demo engine state after ingesting the base fragment for height 1. -/
def demoSt1 : FlashblocksState :=
  ingest demoGenesis demoSt0 demoBase

/-- Demo engine state after additionally ingesting the index-1 transfer
fragment. -/
def demoSt2 : FlashblocksState :=
  ingest demoGenesis demoSt1 demoDelta1

/-- Demo base fragment built with with_canonical_block_number 1, which
the builder turns into target height 2 (the scenario of
test_state_overrides_persisted_across_blocks). -/
def demoBase2 : Flashblock :=
  ((FlashblockBuilder.new_base demoParent).with_canonical_block_number 1).build

/-- Demo index-1 fragment for target height 2 carrying a second 100000
wei Alice-to-Bob transfer. -/
def demoDelta2 : Flashblock :=
  (((FlashblockBuilder.new demoParent 1).with_canonical_block_number 1).with_transactions
    [Tx.transfer 0 1 100000 1]).build

/-- Demo engine state with pending blocks stacked for heights 1 and 2. -/
def demoSt3 : FlashblocksState :=
  ingest demoGenesis demoSt2 demoBase2

/-- Demo engine state after the height-2 transfer fragment: Bob's
override is canonical + 200000. -/
def demoSt4 : FlashblocksState :=
  ingest demoGenesis demoSt3 demoDelta2

/-- Canonical account state after canonical block 1 lands carrying a
100 wei Alice-to-Bob transfer at nonce 0 (the canonical block of
test_only_current_pending_state_cleared_upon_canonical_block_reorg). -/
def demoGAfter : Addr → Account :=
  execCanonTx demoGenesis (Tx.transfer 0 1 100 0)

/-- Demo engine state after the engine processes canonical block 1 while
pending blocks 1 and 2 were live. -/
def demoSt5 : FlashblocksState :=
  on_canonical_block_received demoGAfter 1 demoSt4

/-- Demo same-height rebase base fragment: a base for height 1 that is
not byte-identical to demoBase (different parent timestamp), so
ingesting it hits the rebase branch rather than the duplicate branch. -/
def demoParentB : ParentBlockInfo :=
  { number := 0, hash := 7, gas_limit := 30000000, timestamp := 10 }

/-- Demo rebase base fragment targeting height 1. -/
def demoRebase : Flashblock :=
  (FlashblockBuilder.new_base demoParentB).build

/-- Demo index-1 fragment re-applying the 100000 wei Alice-to-Bob
transfer after the rebase. -/
def demoDeltaR : Flashblock :=
  ((FlashblockBuilder.new demoParentB 1).with_transactions [Tx.transfer 0 1 100000 1]).build

/-- Demo gap fragment: index 3 while the live block has applied indices
0 and 1 (the scenario of test_non_sequential_payload_clears_pending_state). -/
def demoDelta3 : Flashblock :=
  ((FlashblockBuilder.new demoParent 3).with_transactions [Tx.transfer 0 1 100 1]).build

/-- C2: ingesting a fragment that is byte-identical to the one already
applied at its index in the live pending block is a successful no-op:
the engine state, the assembled pending block and the override map are
all unchanged. -/
theorem duplicate_flashblock_ingest_noop (canon : Addr → Account) (st : FlashblocksState)
    (b : PendingBlock) (fb : Flashblock)
    (hlive : st.pending.getLast? = some b)
    (hdup : b.fragments[fb.index]? = some fb) :
    ingest canon st fb = st ∧
    get_block (ingest canon st fb) true = get_block st true ∧
    get_state_overrides (ingest canon st fb) = get_state_overrides st := by
  have h : ingest canon st fb = st := by
    unfold ingest
    rw [hlive]
    simp [hdup]
  exact ⟨h, by rw [h], by rw [h]⟩

/-- Witness for C2: replaying the height-1 transfer fragment on the demo
state that already applied it leaves the state unchanged. -/
theorem duplicate_flashblock_ingest_noop_witness :
    ingest demoGenesis demoSt2 demoDelta1 = demoSt2 ∧
    get_block (ingest demoGenesis demoSt2 demoDelta1) true = get_block demoSt2 true ∧
    get_state_overrides (ingest demoGenesis demoSt2 demoDelta1) = get_state_overrides demoSt2 :=
  duplicate_flashblock_ingest_noop demoGenesis demoSt2
    { number := 1, fragments := [demoBase, demoDelta1] } demoDelta1 (by decide) (by decide)

/-- C3: a fragment that is neither a duplicate, nor the expected next
index, nor a new base discards all pending state without surfacing an
error: afterwards is_none() is true and get_block reports no pending
block, until a subsequent index-0 fragment starts a new sequence. -/
theorem gap_invalidates_pending (canon : Addr → Account) (st : FlashblocksState)
    (b : PendingBlock) (fb : Flashblock)
    (hlive : st.pending.getLast? = some b)
    (hnodup : ¬b.fragments[fb.index]? = some fb)
    (hnotbase : fb.index ≠ 0)
    (hnotnext : ¬(fb.metadata.block_number = b.number ∧ fb.index = b.fragments.length)) :
    ingest canon st fb = { st with pending := [], overrides := [] } ∧
    is_none (ingest canon st fb) = true ∧
    get_block (ingest canon st fb) true = none ∧
    ∀ fb0 : Flashblock, fb0.index = 0 →
      is_none (ingest canon (ingest canon st fb) fb0) = false := by
  have h : ingest canon st fb = { st with pending := [], overrides := [] } := by
    unfold ingest
    rw [hlive]
    simp [hnodup, hnotbase, hnotnext]
  refine ⟨h, ?_, ?_, ?_⟩
  · rw [h]; rfl
  · rw [h]; rfl
  · intro fb0 h0
    rw [h]
    unfold ingest
    simp [h0, is_none]

/-- Witness for C3: ingesting the index-3 fragment while the live block
has applied indices 0 and 1 clears the pending state, and a fresh base
fragment afterwards revives it. -/
theorem gap_invalidates_pending_witness :
    ingest demoGenesis demoSt2 demoDelta3 = { demoSt2 with pending := [], overrides := [] } ∧
    is_none (ingest demoGenesis demoSt2 demoDelta3) = true ∧
    get_block (ingest demoGenesis demoSt2 demoDelta3) true = none ∧
    ∀ fb0 : Flashblock, fb0.index = 0 →
      is_none (ingest demoGenesis (ingest demoGenesis demoSt2 demoDelta3) fb0) = false :=
  gap_invalidates_pending demoGenesis demoSt2
    { number := 1, fragments := [demoBase, demoDelta1] } demoDelta3
    (by decide) (by decide) (by decide) (by decide)

/-- C6: starting from an engine with no pending sequence, an index-0
fragment targeting height N (carrying its single embedded system
transaction) followed by an index-1 fragment for the same target yields
a pending block with header number N and 1 + (index-1 transaction count)
transactions; a subsequent index-0 fragment for target N + 1 advances
the header number to N + 1 with the transaction count reset to that
fragment's own single-transaction contribution. -/
theorem sequential_continuation (canon : Addr → Account) (st0 : FlashblocksState)
    (fb0 fb1 fb2 : Flashblock) (N : Nat)
    (hempty : st0.pending = [])
    (h0i : fb0.index = 0) (h0n : fb0.metadata.block_number = N)
    (h0len : fb0.diff.transactions.length = 1)
    (h1i : fb1.index = 1) (h1n : fb1.metadata.block_number = N)
    (h2i : fb2.index = 0) (h2n : fb2.metadata.block_number = N + 1)
    (h2len : fb2.diff.transactions.length = 1) :
    (get_block (ingest canon (ingest canon st0 fb0) fb1) true).map
        (fun v => (v.header_number, v.transactions.length))
      = some (N, 1 + fb1.diff.transactions.length) ∧
    (get_block (ingest canon (ingest canon (ingest canon st0 fb0) fb1) fb2) true).map
        (fun v => (v.header_number, v.transactions.length))
      = some (N + 1, 1) := by
  have step1 : ∀ s : FlashblocksState, s.pending = [] →
      (ingest canon s fb0).pending = [{ number := N, fragments := [fb0] }] := by
    intro s hs
    unfold ingest
    rw [hs]
    simp [h0i, h0n]
  have hne10 : ¬([fb0] : List Flashblock)[fb1.index]? = some fb1 := by
    rw [h1i]; simp
  have step2 : ∀ s : FlashblocksState, s.pending = [{ number := N, fragments := [fb0] }] →
      (ingest canon s fb1).pending = [{ number := N, fragments := [fb0, fb1] }] := by
    intro s hs
    unfold ingest
    rw [hs]
    simp [hne10, h1i, h1n]
  have hfb0ne : fb0 ≠ fb2 := by
    intro h
    rw [h, h2n] at h0n
    omega
  have hne20 : ¬([fb0, fb1] : List Flashblock)[fb2.index]? = some fb2 := by
    rw [h2i]
    simp [hfb0ne]
  have step3 : ∀ s : FlashblocksState, s.pending = [{ number := N, fragments := [fb0, fb1] }] →
      (ingest canon s fb2).pending
        = [{ number := N, fragments := [fb0, fb1] }, { number := N + 1, fragments := [fb2] }] := by
    intro s hs
    unfold ingest
    rw [hs]
    simp [hne20, h2i, h2n, hfb0ne]
  have e2 := step2 _ (step1 st0 hempty)
  have e3 := step3 _ e2
  constructor
  · unfold get_block
    rw [e2]
    simp [pendingBlockTxs, h0len]
  · unfold get_block
    rw [e3]
    simp [pendingBlockTxs, h2len]

/-- Witness for C6: the demo base for height 1, the transfer fragment,
and the next-height base produce header numbers 1 then 2 with
transaction counts 2 then 1. -/
theorem sequential_continuation_witness :
    (get_block (ingest demoGenesis (ingest demoGenesis demoSt0 demoBase) demoDelta1) true).map
        (fun v => (v.header_number, v.transactions.length))
      = some (1, 1 + demoDelta1.diff.transactions.length) ∧
    (get_block (ingest demoGenesis
        (ingest demoGenesis (ingest demoGenesis demoSt0 demoBase) demoDelta1) demoBase2) true).map
        (fun v => (v.header_number, v.transactions.length))
      = some (1 + 1, 1) :=
  sequential_continuation demoGenesis demoSt0 demoBase demoDelta1 demoBase2 1
    (by decide) (by decide) (by decide) (by decide) (by decide) (by decide)
    (by decide) (by decide) (by decide)

/-- C7 counterexample: an engine that has processed canonical block 1
but holds no live pending sequence (the situation of
test_progress_canonical_blocks_without_flashblocks) returns none from
get_block even with allow_fallback set, instead of the claimed canonical
fallback block. -/
theorem fallback_counterexample :
    is_none (on_canonical_block_received demoGAfter 1 demoSt0) = true ∧
    get_block (on_canonical_block_received demoGAfter 1 demoSt0) true = none := by
  decide

/-- C7 amended: whenever no live pending sequence exists, get_block
returns none regardless of the allow_fallback argument, and is_none
reports true. -/
theorem get_block_none_without_pending (st : FlashblocksState) (allow_fallback : Bool)
    (h : st.pending = []) :
    get_block st allow_fallback = none ∧ is_none st = true := by
  unfold get_block is_none
  rw [h]
  simp

/-- Witness for the amended C7: the demo engine state with no pending
sequence yields no block. -/
theorem get_block_none_without_pending_witness :
    get_block demoSt0 false = none ∧ is_none demoSt0 = true :=
  get_block_none_without_pending demoSt0 false (by decide)

/-- C8: a base fragment built without receipts is byte-identical to the
one built with receipts (the builder discards receipts entirely),
ingesting it succeeds and produces a pending block holding the single
deposit transaction whose displayed deposit nonce comes from the
transaction's own intrinsic nonce field; in general the assembled
deposit nonce of any deposit transaction is its intrinsic nonce,
independent of any receipt data. -/
theorem missing_receipts_ok (canon : Addr → Account) (parent : ParentBlockInfo) :
    ((FlashblockBuilder.new_base parent).with_receipts none).build
      = (FlashblockBuilder.new_base parent).build ∧
    is_none (ingest canon { anchor := 0, pending := [], overrides := [] }
      (((FlashblockBuilder.new_base parent).with_receipts none).build)) = false ∧
    (get_block (ingest canon { anchor := 0, pending := [], overrides := [] }
        (((FlashblockBuilder.new_base parent).with_receipts none).build)) true).map
        (fun v => (v.header_number, v.transactions.map (fun t => t.deposit_nonce)))
      = some (parent.number + 1, [some 0]) ∧
    (∀ n : Nat, (assembleTx (Tx.deposit n)).deposit_nonce = some n) := by
  refine ⟨rfl, ?_, ?_, fun n => rfl⟩
  · unfold ingest
    simp [FlashblockBuilder.new_base, FlashblockBuilder.with_receipts, FlashblockBuilder.build,
      is_none]
  · unfold ingest
    simp [FlashblockBuilder.new_base, FlashblockBuilder.with_receipts, FlashblockBuilder.build,
      get_block, pendingBlockTxs, assembleTx, L1_BLOCK_INFO_DEPOSIT_TX]

/-- C9 counterexample: building a base flashblock with an explicit
canonical block number override of 100 yields target height 101, not the
claimed 100, in both the metadata and the base payload (matching the
builder's own unit test test_with_canonical_block_number). -/
theorem canonical_override_counterexample :
    ((FlashblockBuilder.new_base demoParent).with_canonical_block_number 100).build.metadata.block_number
      = 101 ∧
    (((FlashblockBuilder.new_base demoParent).with_canonical_block_number 100).build.base.map
      (fun b => b.block_number)) = some 101 ∧
    (101 : Nat) ≠ 100 := by
  decide

/-- C9 amended: a fragment built without an explicit override targets
parent number + 1; a fragment built with explicit override n targets
n + 1 (the override replaces the parent number inside the plus-one
computation).  This holds for base builders and for delta builders of
every index, also after with_transactions as the repository tests
compose them, in the metadata and, for index 0, in the base payload. -/
theorem builder_target_height (parent : ParentBlockInfo) (n i : Nat) (ts : List Tx) :
    (FlashblockBuilder.new_base parent).build.metadata.block_number = parent.number + 1 ∧
    ((FlashblockBuilder.new parent i).build).metadata.block_number = parent.number + 1 ∧
    ((FlashblockBuilder.new_base parent).with_canonical_block_number n).build.metadata.block_number
      = n + 1 ∧
    (((FlashblockBuilder.new_base parent).with_canonical_block_number n).build.base.map
      (fun b => b.block_number)) = some (n + 1) ∧
    ((FlashblockBuilder.new parent i).with_canonical_block_number n).build.metadata.block_number
      = n + 1 ∧
    ((((FlashblockBuilder.new parent i).with_canonical_block_number n).with_transactions
      ts).build).metadata.block_number = n + 1 ∧
    ((FlashblockBuilder.new_base parent).build.base.map (fun b => b.block_number))
      = some (parent.number + 1) := by
  refine ⟨rfl, rfl, rfl, rfl, rfl, rfl, rfl⟩

/-- C4 counterexample: with the live sequence targeting height 1, the
base fragment built with with_canonical_block_number 1 targets height 2
(not 1), yet ingesting it does not clear the override map: Alice's entry
from the height-1 transfer is still present (replaying
test_state_overrides_persisted_across_blocks). -/
theorem rebase_clear_counterexample :
    demoSt2.pending.getLast? = some { number := 1, fragments := [demoBase, demoDelta1] } ∧
    demoBase2.index = 0 ∧
    demoBase2.metadata.block_number ≠ 1 ∧
    get_state_overrides demoSt3 ≠ some [] ∧
    ovLookup demoSt3.overrides 0 ≠ none := by
  decide

/-- C4 amended: an index-0 fragment carries the existing override map
forward both when its target equals the previous sequence's target (a
same-height rebase) and when it exceeds it by one (stacking the next
height, the case the repository test exercises); the map is cleared to
empty only for any other target.  After a same-height rebase followed by
re-applying the 100000 wei Alice-to-Bob transfer — and likewise after
the next-height base of the test — Bob's override balance equals Bob's
canonical balance plus 200000. -/
theorem override_carry_forward_amended (canon : Addr → Account) (st : FlashblocksState)
    (b : PendingBlock) (fb : Flashblock)
    (hlive : st.pending.getLast? = some b)
    (hnodup : ¬b.fragments[fb.index]? = some fb)
    (hbase : fb.index = 0) :
    ((fb.metadata.block_number = b.number ∨ fb.metadata.block_number = b.number + 1) →
      (ingest canon st fb).overrides = execFragment canon st.overrides fb) ∧
    ((fb.metadata.block_number ≠ b.number ∧ fb.metadata.block_number ≠ b.number + 1) →
      (ingest canon st fb).overrides = execFragment canon [] fb) ∧
    get_balance (ingest demoGenesis (ingest demoGenesis demoSt2 demoRebase) demoDeltaR) 1
      = some ((demoGenesis 1).balance + 200000) ∧
    get_balance demoSt4 1 = some ((demoGenesis 1).balance + 200000) := by
  have hnodup0 : ¬b.fragments[0]? = some fb := hbase ▸ hnodup
  refine ⟨?_, ?_, by decide, by decide⟩
  · intro hc
    unfold ingest
    rw [hlive]
    rcases hc with h | h
    · simp [hnodup0, hbase, h]
    · simp [hnodup0, hbase, h]
  · intro hc
    unfold ingest
    rw [hlive]
    simp [hnodup0, hbase, hc.1, hc.2]

/-- Witness for the amended C4: ingesting the next-height base on the
demo state keeps the override map (carried forward, not recomputed). -/
theorem override_carry_forward_amended_witness :
    ((demoBase2.metadata.block_number = 1 ∨ demoBase2.metadata.block_number = 1 + 1) →
      (ingest demoGenesis demoSt2 demoBase2).overrides
        = execFragment demoGenesis demoSt2.overrides demoBase2) ∧
    ((demoBase2.metadata.block_number ≠ 1 ∧ demoBase2.metadata.block_number ≠ 1 + 1) →
      (ingest demoGenesis demoSt2 demoBase2).overrides
        = execFragment demoGenesis [] demoBase2) ∧
    get_balance (ingest demoGenesis (ingest demoGenesis demoSt2 demoRebase) demoDeltaR) 1
      = some ((demoGenesis 1).balance + 200000) ∧
    get_balance demoSt4 1 = some ((demoGenesis 1).balance + 200000) :=
  override_carry_forward_amended demoGenesis demoSt2
    { number := 1, fragments := [demoBase, demoDelta1] } demoBase2
    (by decide) (by decide) (by decide)

/-- C5 counterexample: with pending blocks stacked for heights 1 and 2
and overrides giving Bob canonical + 200000, processing canonical block
1 (which carries a 100 wei Alice-to-Bob transfer) leaves a pending block
with 2 transactions (not zero) and changes the override map: Bob's
override becomes the new canonical balance + 100000, not the retained
200500 (replaying
test_only_current_pending_state_cleared_upon_canonical_block_reorg). -/
theorem canonical_catchup_counterexample :
    demoSt4.pending.map (fun p => p.number) = [1, 2] ∧
    (get_block demoSt5 true).map (fun v => v.transactions.length) = some 2 ∧
    demoSt5.overrides ≠ demoSt4.overrides ∧
    get_balance demoSt4 1 = some 200500 ∧
    get_balance demoSt5 1 = some 100600 := by
  decide

/-- C5 amended: processing a canonical block advances the anchor and
does not invalidate pending state as a whole: exactly the pending blocks
at heights above the canonical block are retained, each keeping its
transactions, and the override map is recomputed by re-executing the
retained pending transactions against the post-block canonical state —
concretely, after the demo catch-up Bob's override equals his new
canonical balance plus the remaining speculative 100000. -/
theorem canonical_catchup_amended (canonAfter : Addr → Account) (n : Nat)
    (st : FlashblocksState) :
    (on_canonical_block_received canonAfter n st).anchor = n ∧
    (on_canonical_block_received canonAfter n st).pending
      = st.pending.filter (fun p => n < p.number) ∧
    (∀ p, p ∈ st.pending → n < p.number →
      p ∈ (on_canonical_block_received canonAfter n st).pending) ∧
    (on_canonical_block_received canonAfter n st).overrides
      = (((st.pending.filter (fun p => n < p.number)).map pendingBlockTxs).flatten).foldl
          (execTx canonAfter) [] ∧
    get_balance demoSt5 1 = some ((demoGAfter 1).balance + 100000) := by
  refine ⟨rfl, rfl, ?_, rfl, by decide⟩
  intro p hp hn
  unfold on_canonical_block_received
  simp only [List.mem_filter]
  exact ⟨hp, by simpa using hn⟩

/-- Witness for the amended C5: processing canonical block 1 on the demo
stacked state keeps exactly the height-2 pending block and recomputes
the overrides. -/
theorem canonical_catchup_amended_witness :
    (on_canonical_block_received demoGAfter 1 demoSt4).anchor = 1 ∧
    (on_canonical_block_received demoGAfter 1 demoSt4).pending
      = demoSt4.pending.filter (fun p => 1 < p.number) ∧
    (∀ p, p ∈ demoSt4.pending → 1 < p.number →
      p ∈ (on_canonical_block_received demoGAfter 1 demoSt4).pending) ∧
    (on_canonical_block_received demoGAfter 1 demoSt4).overrides
      = (((demoSt4.pending.filter (fun p => 1 < p.number)).map pendingBlockTxs).flatten).foldl
          (execTx demoGAfter) [] ∧
    get_balance demoSt5 1 = some ((demoGAfter 1).balance + 100000) :=
  canonical_catchup_amended demoGAfter 1 demoSt4

/-- The engine state of the nonce race scenario: the harness feeds the
genesis block (anchor 0), then a base fragment for height 1, then an
index-1 fragment carrying a single transfer from A to B (so the pending
sequence contains exactly one transaction from A). -/
def nonceRaceState (g : Addr → Account) (A B : Addr) (amtP : Nat) : FlashblocksState :=
  ingest g
    (ingest g (on_canonical_block_received g 0 { anchor := 0, pending := [], overrides := [] })
      (FlashblockBuilder.new_base demoParent).build)
    (((FlashblockBuilder.new demoParent 1).with_transactions [Tx.transfer A B amtP 0]).build)

/-- C1: with A's pending transfer applied and a canonical block carrying
A's nonce-0 transaction landed on the chain but not yet processed by the
engine (the anchor is still at 0 while the chain head is at 1), the
pending transaction count plus the canonical nonce read at the engine's
canonical anchor equals the correct pending nonce 1, whereas the same
count plus the nonce read at the independently observed latest chain
head double-counts the landed transaction and yields 2. -/
theorem nonce_uses_canonical_anchor (g : Addr → Account) (A B : Addr) (amtP amtC : Nat)
    (hAB : A ≠ B) (hA : (g A).nonce = 0) :
    get_transaction_count (nonceRaceState g A B amtP) A
      + (stateAtHeight g [[Tx.transfer A B amtC 0]]
          (get_canonical_block_number (nonceRaceState g A B amtP)) A).nonce = 1 ∧
    get_transaction_count (nonceRaceState g A B amtP) A
      + (stateAtHeight g [[Tx.transfer A B amtC 0]]
          ([[Tx.transfer A B amtC 0]] : List (List Tx)).length A).nonce = 2 := by
  have hBA : ¬(A = B) := hAB
  constructor <;>
    simp [nonceRaceState, ingest, on_canonical_block_received, execFragment, execTx,
      ovLookup, ovInsert, emptyOverrideEntry, get_transaction_count,
      get_canonical_block_number, stateAtHeight, execCanonTx,
      FlashblockBuilder.new_base, FlashblockBuilder.new, FlashblockBuilder.with_transactions,
      FlashblockBuilder.build, L1_BLOCK_INFO_DEPOSIT_TX, demoParent, pendingBlockTxs,
      hBA, hA]

/-- Witness for C1: Alice (address 0) with one pending 100 wei transfer
to Bob (address 1); the anchor-based pending nonce is 1, the
latest-head-based one is 2. -/
theorem nonce_uses_canonical_anchor_witness :
    get_transaction_count (nonceRaceState demoGenesis 0 1 100) 0
      + (stateAtHeight demoGenesis [[Tx.transfer 0 1 100 0]]
          (get_canonical_block_number (nonceRaceState demoGenesis 0 1 100)) 0).nonce = 1 ∧
    get_transaction_count (nonceRaceState demoGenesis 0 1 100) 0
      + (stateAtHeight demoGenesis [[Tx.transfer 0 1 100 0]]
          ([[Tx.transfer 0 1 100 0]] : List (List Tx)).length 0).nonce = 2 :=
  nonce_uses_canonical_anchor demoGenesis 0 1 100 100 (by decide) (by decide)

/-- Folding on_canonical_block_received over a block list leaves the
anchor at the last forwarded height (or unchanged when the list is
empty). -/
lemma applyCanonChain_anchor (sa : Nat → Addr → Account) :
    ∀ (blocks : List Nat) (st : FlashblocksState),
      (applyCanonChain sa st blocks).anchor = blocks.getLast?.getD st.anchor := by
  intro blocks
  induction blocks with
  | nil => intro st; rfl
  | cons b bs ih =>
    intro st
    have hstep : applyCanonChain sa st (b :: bs)
        = applyCanonChain sa (on_canonical_block_received (sa b) b st) bs := rfl
    rw [hstep, ih]
    cases bs with
    | nil => rfl
    | cons c cs =>
      cases h : (c :: cs).getLast? with
      | none => simp at h
      | some x => simp [h]

/-- C10: one iteration of the flashblocks-canon extension loop — on
ChainCommitted or ChainReorged every block of the new chain segment is
forwarded to on_canonical_block_received in the segment's ascending
order and the emitted FinishedHeight carries the new tip (to which the
engine anchor has advanced); on ChainReverted no block is forwarded, the
flashblocks state is left unchanged, and the emitted FinishedHeight
carries the old chain's tip. -/
theorem canon_extension_behavior (sa : Nat → Addr → Account) (st : FlashblocksState) :
    (∀ new : CanonChainSeg, canonExtensionStep sa st (.chainCommitted new)
        = (applyCanonChain sa st new.blocks, new.tip)) ∧
    (∀ old new : CanonChainSeg, canonExtensionStep sa st (.chainReorged old new)
        = (applyCanonChain sa st new.blocks, new.tip)) ∧
    (∀ old : CanonChainSeg, canonExtensionStep sa st (.chainReverted old) = (st, old.tip)) ∧
    (∀ new : CanonChainSeg,
      (canonExtensionStep sa st (.chainCommitted new)).1.anchor = new.tip) := by
  refine ⟨fun _ => rfl, fun _ _ => rfl, fun _ => rfl, ?_⟩
  intro new
  show (applyCanonChain sa st new.blocks).anchor = new.tip
  rw [applyCanonChain_anchor]
  unfold CanonChainSeg.tip
  cases h : new.blocks.getLast? with
  | none =>
    exact absurd (by simpa using h) new.ne
  | some x =>
    rfl
